import Mathlib

/-
Shallow embedding of the core of the instagram-scraper repository
(src/scraper/utils.py and src/scraper/fetch_tag.py), together with
theorems settling the specification claims about it.

Python strings are modelled as Lean String/List Char, Python ints as Int/Nat,
fallible code as Except, and the browser/DOM environment as explicit oracle
inputs describing what each Selenium query returns.
-/

namespace IgScraper

/-! Python string primitives used by the scraper. -/

/-- characters matched by Python's whitespace stripping and by the regex
class for whitespace (ASCII subset; the scraper's inputs are tag names and
captions, for which this subset is what the claims exercise). -/
def pyWhitespace (c : Char) : Bool :=
  c = ' ' || c = '\t' || c = '\n' || c = '\r' || c = '\x0b' || c = '\x0c'

/-- drop a trailing run of characters satisfying p (Python str.rstrip with a
character class). -/
def rstripChars (p : Char → Bool) (s : List Char) : List Char :=
  (s.reverse.dropWhile p).reverse

/-- Python str.strip(): remove leading and trailing whitespace. -/
def pyStripWs (s : List Char) : List Char :=
  rstripChars pyWhitespace (s.dropWhile pyWhitespace)

/-- Python str.lstrip('#'): remove the leading run of '#' characters. -/
def pyLstripHash (s : List Char) : List Char :=
  s.dropWhile (fun c => c = '#')

/-- first index at which pat occurs as a contiguous run inside s
(Python str.find / the position of the first regex-literal match). -/
def findSub (pat : List Char) : List Char → Option Nat
  | [] => if pat = [] then some 0 else none
  | c :: rest =>
    if pat.isPrefixOf (c :: rest) then some 0
    else (findSub pat rest).map (· + 1)

/-- whether pat occurs inside s (Python `in` on strings, for nonempty pat). -/
def containsSubL (pat s : List Char) : Bool :=
  (findSub pat s).isSome

def containsSubStr (pat s : String) : Bool :=
  containsSubL pat.toList s.toList

/-- worker for afterLastSub: repeatedly jump past the leftmost occurrence of
pat; the fuel, initialised to the string length, bounds the number of jumps
(each jump removes at least one character, pat being nonempty). -/
def afterLastGo (pat : List Char) : Nat → List Char → List Char
  | 0, s => s
  | fuel + 1, s =>
    match findSub pat s with
    | none => s
    | some i => afterLastGo pat fuel (s.drop (i + pat.length))

/-- the part of s after the last left-scan occurrence of pat, or s itself
when pat does not occur (Python s.split(pat)[-1] for nonempty pat). -/
def afterLastSub (pat s : List Char) : List Char :=
  if pat.isEmpty then s else afterLastGo pat s.length s

/-- ASCII lowering (Python str.lower on the ASCII range). -/
def lowerStr (s : String) : String :=
  String.mk (s.toList.map Char.toLower)

/-- take the first n characters (Python s[:n]). -/
def pyTake (n : Nat) (s : String) : String :=
  String.mk (s.toList.take n)

/-- worker for splitWs: scans characterwise, carrying the current word
(reversed) when inside one. -/
def splitWsGo : Option (List Char) → List Char → List (List Char)
  | none, [] => []
  | some w, [] => [w.reverse]
  | none, c :: rest =>
    if pyWhitespace c then splitWsGo none rest else splitWsGo (some [c]) rest
  | some w, c :: rest =>
    if pyWhitespace c then w.reverse :: splitWsGo none rest
    else splitWsGo (some (c :: w)) rest

/-- split into maximal whitespace-free words (Python str.split() with no
argument), dropping empty fields. -/
def splitWs (s : List Char) : List (List Char) := splitWsGo none s

/-- model of clean_text (utils.py): collapse whitespace runs to single
spaces and trim; the replace('\n')/replace('\t')/strip steps after the
join are no-ops on the joined words and are folded into the word split. -/
def clean_text (s : String) : String :=
  if s.isEmpty then "" else String.intercalate " " ((splitWs s.toList).map String.mk)

/-! model of extract_number_from_text (utils.py). -/

def isDigitComma (c : Char) : Bool := c.isDigit || c = ','

/-- the first maximal run of digit-or-comma characters in s: the first
match of the digits-and-commas regex used by extract_number_from_text. -/
def firstNumRun : List Char → Option (List Char)
  | [] => none
  | c :: rest =>
    if isDigitComma c then some (c :: rest.takeWhile isDigitComma)
    else firstNumRun rest

/-- value of a decimal digit character (only ever applied to digit
characters, where the natural-number subtraction agrees with int()). -/
def digitVal (c : Char) : Int := ((c.toNat - 48 : Nat) : Int)

def digitsToInt (ds : List Char) : Int :=
  ds.foldl (fun a c => a * 10 + digitVal c) 0

/-- model of extract_number_from_text (utils.py): find the first run matching
the digits-and-commas pattern, remove the commas and convert; the error case
models the ValueError raised by int applied to the empty string when that run holds only commas. -/
def extract_number_from_text (s : String) : Except Unit Int :=
  match firstNumRun s.toList with
  | none => .ok 0
  | some tok =>
    if (tok.filter (fun c => c ≠ ',')).isEmpty then .error ()
    else .ok (digitsToInt (tok.filter (fun c => c ≠ ',')))

/-! model of extract_hashtags_from_text (utils.py). -/

def isTagBodyChar (c : Char) : Bool := !pyWhitespace c && c ≠ '#'

/-- the punctuation classes stripped from the end of a matched tag. -/
def trailingPunct (c : Char) : Bool :=
  c = '.' || c = ',' || c = '!' || c = '?' || c = '、' || c = '。'

/-- worker for scanTags: the state holds the body (reversed) of the tag
being accumulated after a marker, or none when outside a tag. -/
def scanTagsGo : Option (List Char) → List Char → List (List Char)
  | none, [] => []
  | some acc, [] => if acc.isEmpty then [] else [('#' :: acc.reverse)]
  | none, c :: rest =>
    if c = '#' then scanTagsGo (some []) rest else scanTagsGo none rest
  | some acc, c :: rest =>
    if isTagBodyChar c then scanTagsGo (some (c :: acc)) rest
    else
      (if acc.isEmpty then [] else [('#' :: acc.reverse)]) ++
        (if c = '#' then scanTagsGo (some []) rest else scanTagsGo none rest)

/-- the successive matches of the tag pattern in a caption: a '#' followed by
the maximal run of non-whitespace, non-'#' characters.  The optional tail
group of the Python pattern can never consume anything once the greedy
first group has, so the pattern is equivalent to this scan. -/
def scanTags (s : List Char) : List (List Char) := scanTagsGo none s

def cleanTag (t : List Char) : List Char := rstripChars trailingPunct t

/-- the dedup-and-filter pass over the matched tags: strip trailing
punctuation, keep tags that are nonempty, longer than one character
(marker included) and not already collected, in first-seen order. -/
def filterTags (acc : List String) : List (List Char) → List String
  | [] => acc
  | t :: ts =>
    let c := cleanTag t
    if ¬c.isEmpty ∧ 1 < c.length ∧ String.mk c ∉ acc
    then filterTags (acc ++ [String.mk c]) ts
    else filterTags acc ts

/-- model of extract_hashtags_from_text (utils.py). -/
def extract_hashtags_from_text (s : String) : List String :=
  if s.isEmpty then [] else filterTags [] (scanTags s.toList)

/-! model of exponential_backoff_sleep (utils.py).  The slept duration is
delay = min(base_delay * 2 ** attempt, max_delay) plus a jitter drawn
uniformly from [0, delay * 0.1]; the draw is modelled by quantifying over
every jitter in that interval. -/

def cappedDelay (attempt : Nat) (base cap : ℚ) : ℚ :=
  min (base * 2 ^ attempt) cap

def backoffDelay (attempt : Nat) (base cap jitter : ℚ) : ℚ :=
  cappedDelay attempt base cap + jitter

/-- the range of random.uniform(0, delay * 0.1) for the given attempt. -/
def jitterInRange (attempt : Nat) (base cap jitter : ℚ) : Prop :=
  0 ≤ jitter ∧ jitter ≤ cappedDelay attempt base cap / 10

/-! model of the error classifier (handle_instagram_errors, utils.py). -/

inductive Classification
  | login_required
  | rate_limited
  | blocked
  | none_cls
  | unknown
deriving DecidableEq

/-- oracle describing what the three page-state checks would report for the
currently loaded page, plus a flag for an exception escaping inside the
handler body (caught there and turned into the unknown classification). -/
structure PageState where
  loginOk : Bool := true
  rateLimited : Bool := false
  blockedPage : Bool := false
  handlerExc : Bool := false
deriving DecidableEq

/-- model of handle_instagram_errors (utils.py): login check first (skipped
when skip_login_check), then the rate-limit check (skipped when
skip_rate_limit_check), then the block check; an exception inside the body
yields the unknown classification. -/
def handle_instagram_errors (skipLogin skipRate : Bool) (p : PageState) :
    Classification :=
  if p.handlerExc then .unknown
  else if !skipLogin && !p.loginOk then .login_required
  else if !skipRate && p.rateLimited then .rate_limited
  else if p.blockedPage then .blocked
  else .none_cls

/-! model of the count extraction (_extract_post_count, fetch_tag.py). -/

/-- oracle for _extract_post_count: the text of the element each count
selector finds (none when the selector fails or times out), and for each
page-source pattern the list of captured matches. -/
structure CountInputs where
  selTexts : List (Option String) := []
  srcMatches : List (List String) := []

/-- the per-selector acceptance test of _extract_post_count: the element
text must be nonempty and mention posts (English or Japanese) or contain a
comma; the parsed count is used only when positive; a parse error is
swallowed by the per-selector handler and the loop continues. -/
def countFromSelText (t : String) : Option Int :=
  if ¬t.isEmpty ∧ (containsSubStr "post" (lowerStr t) ∨ containsSubStr "投稿" t
      ∨ containsSubStr "," t) then
    match extract_number_from_text t with
    | .ok c => if 0 < c then some c else none
    | .error _ => none
  else none

def selCount (ts : List (Option String)) : Option Int :=
  ts.findSome? fun ot =>
    match ot with
    | none => none
    | some t => countFromSelText t

/-- the page-source fallback loop of _extract_post_count; a parse error here
escapes to the outer handler of _extract_post_count. -/
def srcCount : List (List String) → Except Unit Int
  | [] => .ok 0
  | ms :: rest =>
    match ms with
    | [] => srcCount rest
    | s :: _ =>
      match extract_number_from_text s with
      | .error e => .error e
      | .ok c => if 0 < c then .ok c else srcCount rest

/-- model of _extract_post_count (fetch_tag.py): selector strategies first,
then page-source patterns; any exception reaching the outer handler (such
as the parse error modelled in srcCount) yields 0. -/
def extract_post_count (ci : CountInputs) : Int :=
  match selCount ci.selTexts with
  | some c => c
  | none =>
    match srcCount ci.srcMatches with
    | .ok c => c
    | .error _ => 0

/-! model of the related-tag extraction (_extract_related_tags). -/

/-- tag name derived from an href: the path segment after the tag-listing
path, with trailing slashes stripped. -/
def tagNameOf (href : String) : String :=
  String.mk (rstripChars (fun c => c = '/')
    (afterLastSub "/explore/tags/".toList href.toList))

/-- the inner loop of _extract_related_tags over the first ten elements a
selector returned: hrefs that are nonempty and reference the tag-listing
path contribute their tag name, skipping empty names and duplicates. -/
def addTagHrefs (acc : List String) : List (Option String) → List String
  | [] => acc
  | none :: rest => addTagHrefs acc rest
  | some h :: rest =>
    if ¬h.isEmpty ∧ containsSubStr "/explore/tags/" h then
      (if ¬(tagNameOf h).isEmpty ∧ tagNameOf h ∉ acc then
        addTagHrefs (acc ++ [tagNameOf h]) rest
      else addTagHrefs acc rest)
    else addTagHrefs acc rest

/-- the selector loop of _extract_related_tags: each selector contributes
its first ten elements into one shared accumulator; the loop stops after
the first selector that leaves the accumulator nonempty. -/
def collectRelated : List (List (Option String)) → List String → List String
  | [], acc => acc
  | sel :: rest, acc =>
    if (addTagHrefs acc (sel.take 10)).isEmpty then
      collectRelated rest (addTagHrefs acc (sel.take 10))
    else addTagHrefs acc (sel.take 10)

/-- model of _extract_related_tags (fetch_tag.py): collect from the
selector strategies, then pass the list through a Python set and truncate
to ten.  CPython set iteration order is unspecified (string hashing is
randomized per process), so the list(set(...)) step is modelled by an
oracle function setOrd; a faithful setOrd returns some permutation of the
deduplicated list. -/
def extract_related_tags (sels : List (List (Option String)))
    (setOrd : List String → List String) : List String :=
  (setOrd (collectRelated sels [])).take 10

/-! model of the per-post extraction (_extract_top_posts and
_extract_post_from_page, fetch_tag.py). -/

/-- post id derived from a post URL: the path segment after the
individual-post path, with trailing slashes stripped. -/
def postIdOf (url : String) : String :=
  String.mk (rstripChars (fun c => c = '/') (afterLastSub "/p/".toList url.toList))

/-- the dedup pass of _extract_top_posts: keep each href that is nonempty,
references an individual-post path and has a new nonempty post id. -/
def uniquePostUrlsGo (seen : List String) : List (Option String) → List String
  | [] => []
  | none :: rest => uniquePostUrlsGo seen rest
  | some h :: rest =>
    if ¬h.isEmpty ∧ containsSubStr "/p/" h then
      (if ¬(postIdOf h).isEmpty ∧ postIdOf h ∉ seen then
        h :: uniquePostUrlsGo (postIdOf h :: seen) rest
      else uniquePostUrlsGo seen rest)
    else uniquePostUrlsGo seen rest

def uniquePostUrls (links : List (Option String)) : List String :=
  uniquePostUrlsGo [] links

/-- the record built per post.  Option none models a key the Python dict
never received; for keys the source can set to None the two cases are
collapsed onto none, which no claim distinguishes. -/
structure Post where
  url : String
  post_id : String
  image_url : Option String := none
  alt_text : Option String := none
  kind : Option String := none
  caption : Option String := none
  tags : Option (List String) := none
  likes : Option Int := none
  datetime : Option String := none
deriving DecidableEq

/-- oracle for one visit of an individual post page.  The outer Option
layers distinguish a missing element from a present element whose
attribute is missing; the Exc flags model an exception raised inside the
corresponding try block of _extract_post_from_page (or, for loopExc, the
per-post loop body of _extract_top_posts). -/
structure PostPage where
  loopExc : Bool := false
  mediaExc : Bool := false
  imgSrc : Option (Option String) := none
  imgAlt : Option String := none
  video : Option (Option String) := none
  captionExc : Bool := false
  captionTexts : List (List String) := []
  likesExc : Bool := false
  likesTexts : List (List String) := []
  timeAttr : Option (Option String) := none

def baseImg (pp : PostPage) : Option String :=
  match pp.imgSrc with
  | some src => src
  | none => none

def baseAlt (pp : PostPage) : Option String :=
  match pp.imgSrc, pp.imgAlt with
  | some _, some a => if a.isEmpty then none else some (pyTake 500 (clean_text a))
  | _, _ => none

/-- the media block of _extract_post_from_page, producing (image_url,
alt_text, kind): image src and cleaned, truncated alt text when an image
element is found; a video element forces kind video with its poster (when
truthy) as the media URL, otherwise kind image; an exception skips the
block. -/
def mediaFields (pp : PostPage) : Option String × Option String × Option String :=
  if pp.mediaExc then (none, none, none)
  else
    match pp.video with
    | some poster =>
      (match poster with
       | some ps => if ps.isEmpty then baseImg pp else some ps
       | none => baseImg pp,
       baseAlt pp, some "video")
    | none => (baseImg pp, baseAlt pp, some "image")

def stripStr (t : String) : String := String.mk (pyStripWs t.toList)

/-- the caption scan: the first element text over the caption selectors
whose stripped form is nonempty and longer than twenty characters. -/
def firstLongIn (ts : List String) : Option String :=
  ts.findSome? fun t =>
    if ¬(stripStr t).isEmpty ∧ 20 < (stripStr t).length then some (stripStr t)
    else none

def firstLongText (sels : List (List String)) : Option String :=
  sels.findSome? firstLongIn

/-- the caption block of _extract_post_from_page, producing (caption, tags):
the caption key gets the cleaned, truncated text and the tags key the tags
extracted from the raw accepted text; with no accepted text neither key is
set. -/
def captionFields (pp : PostPage) : Option String × Option (List String) :=
  if pp.captionExc then (none, none)
  else
    match firstLongText pp.captionTexts with
    | some t => (some (pyTake 500 (clean_text t)), some (extract_hashtags_from_text t))
    | none => (none, none)

/-- the like-count block of _extract_post_from_page: the first selector
whose element list is nonempty supplies its first element's text to the
number parser; an exception inside the block (including the parse error of
extract_number_from_text) sets likes to 0; when no selector matches and
nothing raises, the likes key is never set. -/
def likesField (pp : PostPage) : Option Int :=
  if pp.likesExc then some 0
  else
    match pp.likesTexts.find? (fun l => !l.isEmpty) with
    | some (t :: _) =>
      (match extract_number_from_text t with
       | .ok n => some n
       | .error _ => some 0)
    | _ => none

/-- model of _extract_post_from_page (fetch_tag.py); every inner block has
its own handler, so a visited page always yields a record, with url and
post id always present. -/
def extract_post_from_page (url : String) (pp : PostPage) : Post :=
  { url := url
    post_id := postIdOf url
    image_url := (mediaFields pp).1
    alt_text := (mediaFields pp).2.1
    kind := (mediaFields pp).2.2
    caption := (captionFields pp).1
    tags := (captionFields pp).2
    likes := likesField pp
    datetime :=
      match pp.timeAttr with
      | some a => a
      | none => none }

/-- model of _extract_top_posts (fetch_tag.py): find post links (falling
back to the alternative selector when the first finds none), deduplicate
by post id, truncate to max_posts, then visit each retained URL in order;
a per-post exception skips that post. -/
def extract_top_posts (links linksAlt : List (Option String))
    (pages : Nat → PostPage) (maxPosts : Nat) : List Post :=
  ((uniquePostUrls (if links.isEmpty then linksAlt else links)).take maxPosts).enum.filterMap
    fun iu =>
      if (pages iu.1).loopExc then none
      else some (extract_post_from_page iu.2 (pages iu.1))

/-! model of the fetch orchestrator (fetch_hashtag_info and
fetch_hashtag_data, fetch_tag.py). -/

/-- the record-level error messages the orchestrator can set. -/
inductive ErrMsg
  | loginExpired
  | rateLimitExceeded
  | accountBlocked
  | maxRetriesReached (detail : String)
  | sessionInitFailed
deriving DecidableEq

/-- the extraction-phase oracle of one attempt. -/
structure ExtractInputs where
  count : CountInputs := {}
  relatedSels : List (List (Option String)) := []
  setOrd : List String → List String := id
  postLinks : List (Option String) := []
  postLinksAlt : List (Option String) := []
  postPages : Nat → PostPage := fun _ => {}

/-- oracle for one attempt of the retry loop: an exception raised during
navigation or the settle wait (before classification), the page state the
classifier checks would observe, and the extraction inputs. -/
structure AttemptSpec where
  navExc : Option String := none
  page : PageState := {}
  extract : ExtractInputs := {}

structure TopicRecord where
  hashtag : String
  url : String
  post_count : Int
  related_tags : List String
  top_posts : List Post
  error : Option ErrMsg
  scraped_at : Nat
deriving DecidableEq

inductive StepKind
  | backoffRate
  | backoffExc
  | termLogin
  | termRate
  | termBlocked
  | termExc
  | success
deriving DecidableEq

/-- one trace entry per executed attempt: whether it ended the loop or
invoked exponential_backoff_sleep and retried. -/
structure TraceEntry where
  attempt : Nat
  kind : StepKind
deriving DecidableEq

/-- the TopicRecord as initialised at the top of fetch_hashtag_info: the
topic name is cleaned by lstrip('#') followed by strip(), in that order. -/
def initRecord (hashtag : String) (now : Nat) : TopicRecord :=
  { hashtag := String.mk (pyStripWs (pyLstripHash hashtag.toList))
    url := "https://www.instagram.com/explore/tags/" ++
      String.mk (pyStripWs (pyLstripHash hashtag.toList)) ++ "/"
    post_count := 0
    related_tags := []
    top_posts := []
    error := none
    scraped_at := now }

/-- the retry loop of fetch_hashtag_info.  Each attempt navigates (a
navigation-phase exception is caught by the per-attempt handler), then
classifies and branches exactly as the source does; the three extractors
are total (each wraps its body in a catch-all handler), so an attempt that
reaches extraction returns.  The comparison a < maxRetries - 1 is the
source's attempt < max_retries - 1 (inside the loop max_retries is at
least 1, where truncated subtraction agrees with Python).  The fuel
argument counts remaining loop iterations and equals maxRetries - a at
every call from fetch_hashtag_info. -/
def attemptLoop (skipLogin skipRate : Bool) (o : Nat → AttemptSpec)
    (rec : TopicRecord) (maxRetries maxPosts : Nat) :
    Nat → Nat → TopicRecord × List TraceEntry
  | _, 0 => (rec, [])
  | a, fuel + 1 =>
    match (o a).navExc with
    | some msg =>
      if a < maxRetries - 1 then
        (fun p => (p.1, ⟨a, .backoffExc⟩ :: p.2))
          (attemptLoop skipLogin skipRate o rec maxRetries maxPosts (a + 1) fuel)
      else ({ rec with error := some (.maxRetriesReached msg) }, [⟨a, .termExc⟩])
    | none =>
      match handle_instagram_errors skipLogin skipRate (o a).page with
      | .login_required => ({ rec with error := some .loginExpired }, [⟨a, .termLogin⟩])
      | .rate_limited =>
        if a < maxRetries - 1 then
          (fun p => (p.1, ⟨a, .backoffRate⟩ :: p.2))
            (attemptLoop skipLogin skipRate o rec maxRetries maxPosts (a + 1) fuel)
        else ({ rec with error := some .rateLimitExceeded }, [⟨a, .termRate⟩])
      | .blocked => ({ rec with error := some .accountBlocked }, [⟨a, .termBlocked⟩])
      | _ =>
        ({ rec with
            post_count := extract_post_count (o a).extract.count
            related_tags :=
              extract_related_tags (o a).extract.relatedSels (o a).extract.setOrd
            top_posts :=
              extract_top_posts (o a).extract.postLinks (o a).extract.postLinksAlt
                (o a).extract.postPages maxPosts },
         [⟨a, .success⟩])

inductive PyExc
  | sessionNotInitialized
deriving DecidableEq

/-- model of fetch_hashtag_info (fetch_tag.py).  The only raise outside the
per-attempt handler is the session-not-initialised check at the top;
everything in the loop body is caught there, as modelled in attemptLoop. -/
def fetch_hashtag_info (skipLogin skipRate driverReady : Bool)
    (o : Nat → AttemptSpec) (hashtag : String) (now maxRetries maxPosts : Nat) :
    Except PyExc (TopicRecord × List TraceEntry) :=
  if driverReady then
    .ok (attemptLoop skipLogin skipRate o (initRecord hashtag now) maxRetries
      maxPosts 0 maxRetries)
  else .error .sessionNotInitialized

/-- the record fetch_hashtag_data builds when session initialisation fails:
only lstrip('#') is applied to the topic name, and the url/scraped_at keys
are never set (placeholder defaults here). -/
def sessionFailRecord (hashtag : String) : TopicRecord :=
  { hashtag := String.mk (pyLstripHash hashtag.toList)
    url := ""
    post_count := 0
    related_tags := []
    top_posts := []
    error := some .sessionInitFailed
    scraped_at := 0 }

/-- model of fetch_hashtag_data (fetch_tag.py): construct the scraper with
its default skip flags (both true), initialise the session (the initOk
oracle: the session initialiser catches its own exceptions and returns a
boolean), and on success run fetch_hashtag_info with the default three
retries and a ready driver. -/
def fetch_hashtag_data (initOk : Bool) (o : Nat → AttemptSpec)
    (hashtag : String) (now maxPosts : Nat) : Except PyExc TopicRecord :=
  if initOk then
    (fetch_hashtag_info true true true o hashtag now 3 maxPosts).map Prod.fst
  else .ok (sessionFailRecord hashtag)

/-- whether an error message is one of the two the orchestrator's
login-required and rate-limited branches produce. -/
def errIsLoginOrRate : Option ErrMsg → Bool
  | some .loginExpired => true
  | some .rateLimitExceeded => true
  | _ => false

/-! concrete oracles used to instantiate the theorems. -/

/-- a run in which every browser interaction succeeds and every query comes
back empty. -/
def oTriv : Nat → AttemptSpec := fun _ => {}

/-- a run whose first attempt sees a rate-limited page and whose second
sees a blocked page. -/
def oC3 : Nat → AttemptSpec := fun a =>
  if a = 0 then { page := { rateLimited := true } }
  else { page := { blockedPage := true } }

/-- one related-tag selector returning anchors for tags a then b. -/
def relatedSelsW : List (List (Option String)) :=
  [[some "https://www.instagram.com/explore/tags/a/",
    some "https://www.instagram.com/explore/tags/b/"]]

/-- a run whose extraction pass sees the two related-tag anchors and whose
Python set happens to iterate in reversed insertion order (string hashing
is randomized, so this order is as legitimate as any other). -/
def oC6 : Nat → AttemptSpec := fun _ =>
  { extract := { relatedSels := relatedSelsW, setOrd := List.reverse } }

/-- a run whose Python sets iterate in an order that coincides with
first-insertion order. -/
def oDedup : Nat → AttemptSpec := fun _ =>
  { extract := { setOrd := List.dedup } }

/-- a post page on which all three like-count selectors match nothing and
nothing raises. -/
def ppNoLikes : PostPage := { likesTexts := [[], [], []] }

end IgScraper

deriving instance DecidableEq for Except

namespace IgScraperClaims
open IgScraper

theorem digitVal_nonneg (c : Char) : 0 ≤ digitVal c := by
  simp [digitVal]

theorem digitsToInt_nonneg (ds : List Char) : 0 ≤ digitsToInt ds := by
  have key : ∀ (l : List Char) (a : Int), 0 ≤ a →
      0 ≤ l.foldl (fun a c => a * 10 + digitVal c) a := by
    intro l
    induction l with
    | nil => intro a ha; simpa using ha
    | cons c t ih =>
      intro a ha
      have hcv := digitVal_nonneg c
      have ha' : 0 ≤ a * 10 + digitVal c := by positivity
      exact ih _ ha'
  exact key ds 0 le_rfl

theorem filterTags_nodup : ∀ ts acc, acc.Nodup → (filterTags acc ts).Nodup := by
  intro ts
  induction ts with
  | nil => intro acc h; simpa [filterTags] using h
  | cons t ts ih =>
    intro acc h
    simp only [filterTags]
    split
    · rename_i hcond
      apply ih
      rw [List.nodup_append]
      exact ⟨h, List.nodup_singleton _, by
        intro x hx hy
        simp at hy
        subst hy
        exact hcond.2.2 hx⟩
    · exact ih acc h

theorem filterTags_min_length : ∀ ts acc, (∀ t ∈ acc, 2 ≤ t.length) →
    ∀ t ∈ filterTags acc ts, 2 ≤ t.length := by
  intro ts
  induction ts with
  | nil => intro acc h; simpa [filterTags] using h
  | cons t ts ih =>
    intro acc h u hu
    simp only [filterTags] at hu
    split at hu
    · rename_i hcond
      refine ih _ ?_ u hu
      intro v hv
      rcases List.mem_append.mp hv with h1 | h2
      · exact h v h1
      · simp at h2
        subst h2
        have : (String.mk (cleanTag t)).length = (cleanTag t).length := rfl
        omega
    · exact ih acc h u hu

theorem extract_number_cases (s : String) :
    (firstNumRun s.toList = none ∧ extract_number_from_text s = .ok 0) ∨
    (∃ tok, firstNumRun s.toList = some tok ∧
      ((tok.filter (fun c => c ≠ ',')).isEmpty = true ∧
          extract_number_from_text s = .error () ∨
        (tok.filter (fun c => c ≠ ',')).isEmpty = false ∧
          extract_number_from_text s =
            .ok (digitsToInt (tok.filter (fun c => c ≠ ','))))) := by
  unfold extract_number_from_text
  cases hr : firstNumRun s.toList with
  | none => exact Or.inl ⟨rfl, rfl⟩
  | some tok =>
    refine Or.inr ⟨tok, rfl, ?_⟩
    cases he : (tok.filter (fun c => c ≠ ',')).isEmpty with
    | true =>
      refine Or.inl ⟨rfl, ?_⟩
      show (if (tok.filter (fun c => c ≠ ',')).isEmpty = true
          then (Except.error () : Except Unit Int)
          else Except.ok (digitsToInt (tok.filter (fun c => c ≠ ',')))) =
        Except.error ()
      rw [he]
      simp
    | false =>
      refine Or.inr ⟨rfl, ?_⟩
      show (if (tok.filter (fun c => c ≠ ',')).isEmpty = true
          then (Except.error () : Except Unit Int)
          else Except.ok (digitsToInt (tok.filter (fun c => c ≠ ',')))) =
        Except.ok (digitsToInt (tok.filter (fun c => c ≠ ',')))
      rw [he]
      simp

/-- C10 (amended): extract_number_from_text returns a non-negative integer
whenever it returns, and raises (ValueError of int on the empty string in the source)
exactly when the first digits-and-commas match consists only of commas. -/
theorem c10_extract_number_amended (s : String) :
    (∀ n, extract_number_from_text s = .ok n → 0 ≤ n)
    ∧ (extract_number_from_text s = .error () ↔
        ∃ tok, firstNumRun s.toList = some tok ∧ ∀ c ∈ tok, c = ',') := by
  have hcases := extract_number_cases s
  constructor
  · intro n h
    rcases hcases with ⟨_, he⟩ | ⟨tok, _, ⟨_, he⟩ | ⟨_, he⟩⟩
    · rw [he] at h; simp at h; omega
    · rw [he] at h; simp at h
    · rw [he] at h
      simp at h
      subst h
      exact digitsToInt_nonneg _
  · constructor
    · intro h
      rcases hcases with ⟨_, he⟩ | ⟨tok, htok, ⟨hemp, he⟩ | ⟨_, he⟩⟩
      · rw [he] at h; simp at h
      · refine ⟨tok, htok, ?_⟩
        intro c hc
        have hnil : tok.filter (fun c => c ≠ ',') = [] := List.isEmpty_iff.mp hemp
        have hc' := List.filter_eq_nil_iff.mp hnil c hc
        simpa using hc'
      · rw [he] at h; simp at h
    · rintro ⟨tok, htok, hall⟩
      have hemp : (tok.filter (fun c => c ≠ ',')).isEmpty = true := by
        rw [List.isEmpty_iff, List.filter_eq_nil_iff]
        intro c hc
        simp [hall c hc]
      rcases hcases with ⟨hn, _⟩ | ⟨tok', htok', ⟨_, he⟩ | ⟨hemp', _⟩⟩
      · rw [hn] at htok; simp at htok
      · exact he
      · rw [htok] at htok'
        simp at htok'
        subst htok'
        rw [hemp] at hemp'
        simp at hemp'

/-- C10 counterexample: on the input "," (first digits-and-commas match is
all commas) the source raises ValueError of int on the empty string, so the claim that the
function never raises is false. -/
theorem c10_counterexample : extract_number_from_text "," = .error () := by
  decide

/-- C10 witness: the amended theorem applied at a concrete input. -/
theorem c10_witness : 0 ≤ (1234 : Int) :=
  (c10_extract_number_amended "1,234 posts").1 1234 (by decide)

/-- C5 counterexample: the code keeps the tag "#a", whose length after
stripping the '#' marker is 1, although the claim states tokens of length
at most 1 after stripping the marker are discarded. -/
theorem c5_counterexample :
    extract_hashtags_from_text "hi #a there" = ["#a"]
    ∧ ("#a".toList.drop 1).length ≤ 1 := by
  decide

/-- C5 (amended): the sample caption yields its three tags in first-seen
order with trailing punctuation stripped; in general the result list is
duplicate-free and only tokens that are empty after stripping the marker
(length at most 1 including the marker) are discarded, so every returned
token has length at least 2. -/
theorem c5_extract_hashtags_amended :
    extract_hashtags_from_text "Great day #sunset #travel! more text#art." =
      ["#sunset", "#travel", "#art"]
    ∧ (∀ s, (extract_hashtags_from_text s).Nodup)
    ∧ (∀ s t, t ∈ extract_hashtags_from_text s → 2 ≤ t.length) := by
  refine ⟨by decide, ?_, ?_⟩
  · intro s
    unfold extract_hashtags_from_text
    split
    · simp
    · exact filterTags_nodup _ [] (List.nodup_nil)
  · intro s t ht
    unfold extract_hashtags_from_text at ht
    split at ht
    · simp at ht
    · exact filterTags_min_length _ [] (by simp) t ht

/-- C5 witness: the amended theorem applied at a concrete input. -/
theorem c5_witness : 2 ≤ "#sunset".length :=
  c5_extract_hashtags_amended.2.2 "Great day #sunset #travel! more text#art."
    "#sunset" (by decide)

/-- C4: for a fixed nonnegative base and any cap, with jitters inside the
drawn range, the backoff delay is monotone from one attempt to the next as
long as the doubled value has not yet reached the cap, and once the
uncapped value reaches the cap every delay equals cap plus its jitter,
with the jitter bounded by a tenth of the cap. -/
theorem c4_backoff_monotone_capped (n : Nat) (base cap j j' : ℚ)
    (hb : 0 ≤ base)
    (hj : jitterInRange n base cap j) (hj' : jitterInRange (n + 1) base cap j') :
    (base * 2 ^ (n + 1) ≤ cap →
      backoffDelay n base cap j ≤ backoffDelay (n + 1) base cap j')
    ∧ (cap ≤ base * 2 ^ n →
      backoffDelay n base cap j = cap + j ∧ j ≤ cap / 10) := by
  obtain ⟨hj0, hjU⟩ := hj
  obtain ⟨hj'0, hj'U⟩ := hj'
  constructor
  · intro hle
    have hx : (0 : ℚ) ≤ base * 2 ^ n := by positivity
    have hdouble : base * 2 ^ (n + 1) = 2 * (base * 2 ^ n) := by ring
    have hstep : base * 2 ^ n ≤ cap := by linarith
    have hc1 : cappedDelay n base cap = base * 2 ^ n := min_eq_left hstep
    have hc2 : cappedDelay (n + 1) base cap = base * 2 ^ (n + 1) := min_eq_left hle
    rw [hc1] at hjU
    rw [backoffDelay, backoffDelay, hc1, hc2]
    linarith
  · intro hge
    have hc : cappedDelay n base cap = cap := min_eq_right hge
    rw [hc] at hjU
    rw [backoffDelay, hc]
    exact ⟨rfl, hjU⟩

/-- C4 witness: the theorem applied at attempt 0, base 1, cap 100 and zero
jitter on both attempts. -/
theorem c4_witness : backoffDelay 0 1 100 0 ≤ backoffDelay 1 1 100 0 :=
  (c4_backoff_monotone_capped 0 1 100 0 0 (by norm_num)
    (by norm_num [jitterInRange, cappedDelay])
    (by norm_num [jitterInRange, cappedDelay])).1 (by norm_num)

theorem countFromSelText_pos (t : String) (c : Int)
    (h : countFromSelText t = some c) : 0 < c := by
  unfold countFromSelText at h
  split at h
  · split at h
    · split at h
      · rename_i hpos
        simp at h
        omega
      · simp at h
    · simp at h
  · simp at h

theorem selCount_pos (ts : List (Option String)) (c : Int)
    (h : selCount ts = some c) : 0 < c := by
  obtain ⟨a, _, hf⟩ := List.exists_of_findSome?_eq_some h
  cases a with
  | none => simp at hf
  | some t => exact countFromSelText_pos t c hf

theorem srcCount_nonneg : ∀ ms c, srcCount ms = .ok c → 0 ≤ c := by
  intro ms
  induction ms with
  | nil =>
    intro c h
    simp [srcCount] at h
    omega
  | cons m rest ih =>
    intro c h
    simp only [srcCount] at h
    split at h
    · exact ih c h
    · split at h
      · simp at h
      · split at h
        · rename_i hpos
          simp at h
          omega
        · exact ih c h

theorem extract_post_count_nonneg (ci : CountInputs) : 0 ≤ extract_post_count ci := by
  unfold extract_post_count
  split
  · rename_i c h
    exact le_of_lt (selCount_pos _ c h)
  · split
    · rename_i c h
      exact srcCount_nonneg _ c h
    · exact le_refl 0

theorem uniquePostUrlsGo_ids (l : List (Option String)) :
    ∀ seen, ((uniquePostUrlsGo seen l).map postIdOf).Nodup ∧
      ∀ x ∈ (uniquePostUrlsGo seen l).map postIdOf, x ∉ seen := by
  induction l with
  | nil => intro seen; simp [uniquePostUrlsGo]
  | cons oh rest ih =>
    intro seen
    cases oh with
    | none => simpa [uniquePostUrlsGo] using ih seen
    | some u =>
      simp only [uniquePostUrlsGo]
      split
      · split
        · rename_i hcond hnew
          obtain ⟨ihn, ihs⟩ := ih (postIdOf u :: seen)
          constructor
          · simp only [List.map_cons, List.nodup_cons]
            refine ⟨?_, ihn⟩
            intro hmem
            exact (ihs _ hmem) (by simp)
          · intro x hx
            simp only [List.map_cons, List.mem_cons] at hx
            rcases hx with rfl | hx
            · exact hnew.2
            · intro hxseen
              exact (ihs x hx) (by simp [hxseen])
        · exact ih seen
      · exact ih seen

theorem posts_ids_sublist (pages : Nat → PostPage) :
    ∀ (l : List String) (n : Nat),
      List.Sublist
        (((List.enumFrom n l).filterMap fun iu =>
            if (pages iu.1).loopExc then none
            else some (extract_post_from_page iu.2 (pages iu.1))).map Post.post_id)
        (l.map postIdOf) := by
  intro l
  induction l with
  | nil => intro n; simp
  | cons u rest ih =>
    intro n
    by_cases hexc : (pages n).loopExc = true
    · simp only [List.enumFrom, List.filterMap_cons, hexc, if_true]
      exact List.Sublist.cons _ (ih (n + 1))
    · simp only [List.enumFrom, List.filterMap_cons, hexc, if_false, List.map_cons]
      exact List.Sublist.cons₂ _ (ih (n + 1))

theorem extract_top_posts_bounds (links linksAlt : List (Option String))
    (pages : Nat → PostPage) (maxPosts : Nat) :
    ((extract_top_posts links linksAlt pages maxPosts).map Post.post_id).Nodup ∧
    (extract_top_posts links linksAlt pages maxPosts).length ≤ maxPosts := by
  constructor
  · have hn : ((uniquePostUrls (if links.isEmpty then linksAlt else links)).map postIdOf).Nodup :=
      (uniquePostUrlsGo_ids _ []).1
    have h2 : List.Sublist
        (((uniquePostUrls (if links.isEmpty then linksAlt else links)).take maxPosts).map postIdOf)
        ((uniquePostUrls (if links.isEmpty then linksAlt else links)).map postIdOf) :=
      (List.take_sublist _ _).map _
    have hsub := posts_ids_sublist pages
      ((uniquePostUrls (if links.isEmpty then linksAlt else links)).take maxPosts) 0
    exact ((hn.sublist h2).sublist hsub)
  · have h1 := List.length_filterMap_le
      (fun iu => if (pages iu.1).loopExc then none
                 else some (extract_post_from_page iu.2 (pages iu.1)))
      ((uniquePostUrls (if links.isEmpty then linksAlt else links)).take maxPosts).enum
    have h2 : (((uniquePostUrls (if links.isEmpty then linksAlt else links)).take maxPosts).enum).length ≤ maxPosts := by
      simp [List.enum_length, List.length_take]
    exact le_trans h1 h2

theorem extract_related_tags_bounds (sels : List (List (Option String)))
    (setOrd : List String → List String)
    (hperm : (setOrd (collectRelated sels [])).Perm (collectRelated sels []).dedup) :
    (extract_related_tags sels setOrd).Nodup ∧
    (extract_related_tags sels setOrd).length ≤ 10 := by
  constructor
  · have hd : (collectRelated sels []).dedup.Nodup := List.nodup_dedup _
    have hs : (setOrd (collectRelated sels [])).Nodup := hperm.symm.nodup hd
    exact hs.sublist (List.take_sublist _ _)
  · simp [extract_related_tags, List.length_take]

theorem attemptLoop_c1 (sl sr : Bool) (o : Nat → AttemptSpec) (rec : TopicRecord)
    (mr mp : Nat) (h0 : rec.post_count = 0) (h1 : rec.related_tags = [])
    (h2 : rec.top_posts = []) (h3 : rec.error = none) :
    ∀ fuel a,
      ((attemptLoop sl sr o rec mr mp a fuel).1.error.isSome = true →
        (attemptLoop sl sr o rec mr mp a fuel).1.post_count = 0 ∧
        (attemptLoop sl sr o rec mr mp a fuel).1.related_tags = [] ∧
        (attemptLoop sl sr o rec mr mp a fuel).1.top_posts = []) ∧
      (∀ a', (⟨a', .success⟩ : TraceEntry) ∈ (attemptLoop sl sr o rec mr mp a fuel).2 →
        (attemptLoop sl sr o rec mr mp a fuel).1.error = none) := by
  intro fuel
  induction fuel with
  | zero =>
    intro a
    constructor
    · intro hs
      simp [attemptLoop, h3] at hs
    · intro a' hm
      simp [attemptLoop] at hm
  | succ fuel ih =>
    intro a
    simp only [attemptLoop]
    split
    · -- navigation raised
      split
      · -- attempts remain: backoff and recurse
        constructor
        · exact (ih (a + 1)).1
        · intro a' hm
          simp only [List.mem_cons] at hm
          rcases hm with he | hm
          · simp at he
          · exact (ih (a + 1)).2 a' hm
      · -- final attempt: terminal error, data untouched
        exact ⟨fun _ => ⟨h0, h1, h2⟩, fun a' hm => by simp at hm⟩
    · -- navigation succeeded: branch on the classification
      split
      · exact ⟨fun _ => ⟨h0, h1, h2⟩, fun a' hm => by simp at hm⟩
      · split
        · constructor
          · exact (ih (a + 1)).1
          · intro a' hm
            simp only [List.mem_cons] at hm
            rcases hm with he | hm
            · simp at he
            · exact (ih (a + 1)).2 a' hm
        · exact ⟨fun _ => ⟨h0, h1, h2⟩, fun a' hm => by simp at hm⟩
      · exact ⟨fun _ => ⟨h0, h1, h2⟩, fun a' hm => by simp at hm⟩
      · exact ⟨fun hs => by simp [h3] at hs, fun a' hm => h3⟩

theorem classifier_skip_flags (p : PageState) :
    handle_instagram_errors true true p = .blocked ∨
    handle_instagram_errors true true p = .none_cls ∨
    handle_instagram_errors true true p = .unknown := by
  unfold handle_instagram_errors
  by_cases h1 : p.handlerExc <;> by_cases h2 : p.blockedPage <;> simp [h1, h2]

theorem attemptLoop_c9 (o : Nat → AttemptSpec) (rec : TopicRecord) (mr mp : Nat)
    (h3 : errIsLoginOrRate rec.error = false) :
    ∀ fuel a,
      errIsLoginOrRate (attemptLoop true true o rec mr mp a fuel).1.error = false := by
  intro fuel
  induction fuel with
  | zero => intro a; simpa [attemptLoop] using h3
  | succ fuel ih =>
    intro a
    simp only [attemptLoop]
    split
    · split
      · exact ih (a + 1)
      · rfl
    · split
      · rename_i heq
        rcases classifier_skip_flags (o a).page with h | h | h <;> rw [heq] at h <;>
          simp at h
      · rename_i heq
        rcases classifier_skip_flags (o a).page with h | h | h <;> rw [heq] at h <;>
          simp at h
      · rfl
      · exact h3

theorem attemptLoop_c3 (sl sr : Bool) (o : Nat → AttemptSpec) (rec : TopicRecord)
    (mr mp : Nat) :
    ∀ fuel a,
      (∀ e ∈ (attemptLoop sl sr o rec mr mp a fuel).2, a ≤ e.attempt) ∧
      (∀ e ∈ (attemptLoop sl sr o rec mr mp a fuel).2,
        (e.kind = .backoffRate →
          (o e.attempt).navExc = none ∧
          handle_instagram_errors sl sr (o e.attempt).page = .rate_limited ∧
          e.attempt < mr - 1) ∧
        (e.kind = .backoffExc →
          (o e.attempt).navExc.isSome = true ∧ e.attempt < mr - 1) ∧
        ((e.kind = .termLogin ∨ e.kind = .termBlocked) →
          ∀ e2 ∈ (attemptLoop sl sr o rec mr mp a fuel).2,
            e2 = e ∨ e2.attempt < e.attempt)) := by
  intro fuel
  induction fuel with
  | zero =>
    intro a
    constructor
    · intro e he; simp [attemptLoop] at he
    · intro e he; simp [attemptLoop] at he
  | succ fuel ih =>
    intro a
    simp only [attemptLoop]
    split
    · rename_i msg hnav
      split
      · rename_i hlt
        constructor
        · intro e he
          simp only [List.mem_cons] at he
          rcases he with rfl | he
          · exact le_refl a
          · exact le_trans (Nat.le_succ a) ((ih (a + 1)).1 e he)
        · intro e he
          simp only [List.mem_cons] at he
          rcases he with rfl | he
          · refine ⟨fun hk => by simp at hk, fun _ => ?_, fun hk => ?_⟩
            · constructor
              · show (o a).navExc.isSome = true
                rw [hnav]
                rfl
              · show a < mr - 1
                exact hlt
            · rcases hk with hk | hk <;> simp at hk
          · refine ⟨((ih (a + 1)).2 e he).1, ((ih (a + 1)).2 e he).2.1, ?_⟩
            intro hk e2 he2
            simp only [List.mem_cons] at he2
            rcases he2 with rfl | he2
            · refine Or.inr ?_
              show a < e.attempt
              have := (ih (a + 1)).1 e he
              omega
            · exact ((ih (a + 1)).2 e he).2.2 hk e2 he2
      · constructor
        · intro e he
          simp only [List.mem_singleton] at he
          subst he
          exact le_refl a
        · intro e he
          simp only [List.mem_singleton] at he
          subst he
          refine ⟨fun hk => by simp at hk, fun hk => by simp at hk, fun hk => ?_⟩
          rcases hk with hk | hk <;> simp at hk
    · rename_i hnav
      split
      · constructor
        · intro e he
          simp only [List.mem_singleton] at he
          subst he
          exact le_refl a
        · intro e he
          simp only [List.mem_singleton] at he
          subst he
          refine ⟨fun hk => by simp at hk, fun hk => by simp at hk, fun _ e2 he2 => ?_⟩
          simp only [List.mem_singleton] at he2
          exact Or.inl he2
      · rename_i hcls
        split
        · rename_i hlt
          constructor
          · intro e he
            simp only [List.mem_cons] at he
            rcases he with rfl | he
            · exact le_refl a
            · exact le_trans (Nat.le_succ a) ((ih (a + 1)).1 e he)
          · intro e he
            simp only [List.mem_cons] at he
            rcases he with rfl | he
            · refine ⟨fun _ => ?_, fun hk => by simp at hk, fun hk => ?_⟩
              · refine ⟨?_, ?_, ?_⟩
                · show (o a).navExc = none
                  exact hnav
                · show handle_instagram_errors sl sr (o a).page = .rate_limited
                  exact hcls
                · show a < mr - 1
                  exact hlt
              · rcases hk with hk | hk <;> simp at hk
            · refine ⟨((ih (a + 1)).2 e he).1, ((ih (a + 1)).2 e he).2.1, ?_⟩
              intro hk e2 he2
              simp only [List.mem_cons] at he2
              rcases he2 with rfl | he2
              · refine Or.inr ?_
                show a < e.attempt
                have := (ih (a + 1)).1 e he
                omega
              · exact ((ih (a + 1)).2 e he).2.2 hk e2 he2
        · constructor
          · intro e he
            simp only [List.mem_singleton] at he
            subst he
            exact le_refl a
          · intro e he
            simp only [List.mem_singleton] at he
            subst he
            refine ⟨fun hk => by simp at hk, fun hk => by simp at hk, fun hk => ?_⟩
            rcases hk with hk | hk <;> simp at hk
      · constructor
        · intro e he
          simp only [List.mem_singleton] at he
          subst he
          exact le_refl a
        · intro e he
          simp only [List.mem_singleton] at he
          subst he
          refine ⟨fun hk => by simp at hk, fun hk => by simp at hk, fun _ e2 he2 => ?_⟩
          simp only [List.mem_singleton] at he2
          exact Or.inl he2
      · constructor
        · intro e he
          simp only [List.mem_singleton] at he
          subst he
          exact le_refl a
        · intro e he
          simp only [List.mem_singleton] at he
          subst he
          refine ⟨fun hk => by simp at hk, fun hk => by simp at hk, fun hk => ?_⟩
          rcases hk with hk | hk <;> simp at hk

theorem extract_number_ok_nonneg (s : String) (n : Int)
    (h : extract_number_from_text s = .ok n) : 0 ≤ n := by
  rcases extract_number_cases s with ⟨_, he⟩ | ⟨tok, _, ⟨_, he⟩ | ⟨_, he⟩⟩
  · rw [he] at h; simp at h; omega
  · rw [he] at h; simp at h
  · rw [he] at h
    simp at h
    subst h
    exact digitsToInt_nonneg _

theorem attemptLoop_c6 (sl sr : Bool) (o : Nat → AttemptSpec) (rec : TopicRecord)
    (mr mp : Nat) (hperm : ∀ a l, ((o a).extract.setOrd l).Perm l.dedup)
    (hr0 : 0 ≤ rec.post_count) (hr1 : rec.related_tags.Nodup)
    (hr2 : rec.related_tags.length ≤ 10) (hr3 : rec.top_posts.length ≤ mp)
    (hr4 : (rec.top_posts.map Post.post_id).Nodup) :
    ∀ fuel a,
      0 ≤ (attemptLoop sl sr o rec mr mp a fuel).1.post_count ∧
      (attemptLoop sl sr o rec mr mp a fuel).1.related_tags.Nodup ∧
      (attemptLoop sl sr o rec mr mp a fuel).1.related_tags.length ≤ 10 ∧
      (attemptLoop sl sr o rec mr mp a fuel).1.top_posts.length ≤ mp ∧
      ((attemptLoop sl sr o rec mr mp a fuel).1.top_posts.map Post.post_id).Nodup := by
  intro fuel
  induction fuel with
  | zero => intro a; exact ⟨hr0, hr1, hr2, hr3, hr4⟩
  | succ fuel ih =>
    intro a
    simp only [attemptLoop]
    split
    · split
      · exact ih (a + 1)
      · exact ⟨hr0, hr1, hr2, hr3, hr4⟩
    · split
      · exact ⟨hr0, hr1, hr2, hr3, hr4⟩
      · split
        · exact ih (a + 1)
        · exact ⟨hr0, hr1, hr2, hr3, hr4⟩
      · exact ⟨hr0, hr1, hr2, hr3, hr4⟩
      · refine ⟨extract_post_count_nonneg _, ?_, ?_, ?_, ?_⟩
        · exact (extract_related_tags_bounds _ _ (hperm a _)).1
        · exact (extract_related_tags_bounds _ _ (hperm a _)).2
        · exact (extract_top_posts_bounds _ _ _ _).2
        · exact (extract_top_posts_bounds _ _ _ _).1

theorem attemptLoop_hashtag (sl sr : Bool) (o : Nat → AttemptSpec)
    (rec : TopicRecord) (mr mp : Nat) :
    ∀ fuel a, (attemptLoop sl sr o rec mr mp a fuel).1.hashtag = rec.hashtag := by
  intro fuel
  induction fuel with
  | zero => intro a; rfl
  | succ fuel ih =>
    intro a
    simp only [attemptLoop]
    split
    · split
      · exact ih (a + 1)
      · rfl
    · split
      · rfl
      · split
        · exact ih (a + 1)
        · rfl
      · rfl
      · rfl

theorem head_dropWhile_not (p : Char → Bool) :
    ∀ l c, ((List.dropWhile p l).head? = some c) → p c = false := by
  intro l
  induction l with
  | nil => intro c h; simp at h
  | cons a t ih =>
    intro c h
    by_cases hp : p a = true
    · rw [List.dropWhile_cons_of_pos hp] at h
      exact ih c h
    · rw [List.dropWhile_cons_of_neg (by simpa using hp)] at h
      simp at h
      rw [← h]
      simpa using hp

theorem head_rstrip (p : Char → Bool) (l : List Char) (c : Char)
    (h : (rstripChars p l).head? = some c) : l.head? = some c := by
  unfold rstripChars at h
  obtain ⟨t, ht⟩ : List.IsSuffix (l.reverse.dropWhile p) l.reverse :=
    List.dropWhile_suffix p
  have hl : (l.reverse.dropWhile p).reverse ++ t.reverse = l := by
    have hc := congrArg List.reverse ht
    simpa [List.reverse_append] using hc
  cases hrev : (l.reverse.dropWhile p).reverse with
  | nil => rw [hrev] at h; simp at h
  | cons x xs =>
    rw [hrev] at h
    simp at h
    rw [← hl, hrev]
    simp [h]

theorem rstrip_getLast_not (p : Char → Bool) (l : List Char) (c : Char)
    (h : (rstripChars p l).getLast? = some c) : p c = false := by
  unfold rstripChars at h
  rw [List.getLast?_reverse] at h
  exact head_dropWhile_not p _ c h

theorem pyStripWs_head (s : List Char) (c : Char)
    (h : (pyStripWs s).head? = some c) : pyWhitespace c = false := by
  unfold pyStripWs at h
  exact head_dropWhile_not _ _ c (head_rstrip _ _ c h)

theorem pyStripWs_getLast (s : List Char) (c : Char)
    (h : (pyStripWs s).getLast? = some c) : pyWhitespace c = false :=
  rstrip_getLast_not _ _ c h

theorem dropWhile_of_all_false (p : Char → Bool) (l : List Char)
    (h : ∀ c ∈ l, p c = false) : List.dropWhile p l = l := by
  cases l with
  | nil => rfl
  | cons a t =>
    rw [List.dropWhile_cons_of_neg]
    simp [h a (by simp)]

theorem pyStripWs_of_no_ws (s : List Char)
    (h : ∀ c ∈ s, pyWhitespace c = false) : pyStripWs s = s := by
  unfold pyStripWs rstripChars
  rw [dropWhile_of_all_false _ s h]
  rw [dropWhile_of_all_false _ s.reverse (fun c hc => h c (by simpa using hc))]
  simp

/-- C1: a terminal error leaves every data field at its zeroed default, and
a run whose trace reached the success branch returns a null error; the same
exclusivity holds for the session-initialisation failure record of
fetch_hashtag_data. -/
theorem c1_error_data_exclusive :
    (∀ sl sr o hashtag now mr mp r tr,
      fetch_hashtag_info sl sr true o hashtag now mr mp = .ok (r, tr) →
      ((r.error.isSome = true →
          r.post_count = 0 ∧ r.related_tags = [] ∧ r.top_posts = []) ∧
        (∀ a, (⟨a, .success⟩ : TraceEntry) ∈ tr → r.error = none)))
    ∧ (∀ initOk o hashtag now mp r,
      fetch_hashtag_data initOk o hashtag now mp = .ok r →
      r.error.isSome = true →
      r.post_count = 0 ∧ r.related_tags = [] ∧ r.top_posts = []) := by
  constructor
  · intro sl sr o hashtag now mr mp r tr h
    have hp : attemptLoop sl sr o (initRecord hashtag now) mr mp 0 mr = (r, tr) := by
      simpa [fetch_hashtag_info] using h
    have hc := attemptLoop_c1 sl sr o (initRecord hashtag now) mr mp rfl rfl rfl rfl mr 0
    rw [hp] at hc
    exact hc
  · intro initOk o hashtag now mp r h
    by_cases hinit : initOk = true
    · rw [hinit] at h
      have hp : (attemptLoop true true o (initRecord hashtag now) 3 mp 0 3).1 = r := by
        simpa [fetch_hashtag_data, fetch_hashtag_info, Except.map] using h
      rw [← hp]
      exact (attemptLoop_c1 true true o (initRecord hashtag now) 3 mp rfl rfl rfl rfl 3 0).1
    · have hf : initOk = false := by simpa using hinit
      rw [hf] at h
      have hp : sessionFailRecord hashtag = r := by
        simpa [fetch_hashtag_data] using h
      rw [← hp]
      intro _
      exact ⟨rfl, rfl, rfl⟩

/-- C1 witness: the theorem applied to a run whose session initialisation
fails, whose record carries an error and zeroed data fields. -/
theorem c1_witness :
    (sessionFailRecord "x").post_count = 0 ∧
    (sessionFailRecord "x").related_tags = [] ∧
    (sessionFailRecord "x").top_posts = [] :=
  c1_error_data_exclusive.2 false oTriv "x" 0 20 (sessionFailRecord "x") rfl rfl

/-- C2: the single entry point always returns a TopicRecord: the
session-initialisation failure is converted into an error record, the
driver is ready whenever the loop runs, and every attempt-level exception
is caught by the loop's handler, so no exception escapes to the caller. -/
theorem c2_entry_never_raises (initOk : Bool) (o : Nat → AttemptSpec)
    (hashtag : String) (now maxPosts : Nat) :
    ∃ r, fetch_hashtag_data initOk o hashtag now maxPosts = .ok r := by
  cases initOk
  · exact ⟨sessionFailRecord hashtag, rfl⟩
  · exact ⟨(attemptLoop true true o (initRecord hashtag now) 3 maxPosts 0 3).1, rfl⟩

/-- C3: in any run of fetch_hashtag_info, a backoff is recorded only after
a rate-limited classification or an attempt-level exception, in both cases
only with attempts remaining; and a login-required or blocked
classification ends the run at once: its trace entry is the last one, every
other entry belonging to a strictly earlier attempt. -/
theorem c3_backoff_discipline (sl sr : Bool) (o : Nat → AttemptSpec)
    (hashtag : String) (now mr mp : Nat) (r : TopicRecord) (tr : List TraceEntry)
    (h : fetch_hashtag_info sl sr true o hashtag now mr mp = .ok (r, tr)) :
    (∀ e ∈ tr, e.kind = .backoffRate →
      (o e.attempt).navExc = none ∧
      handle_instagram_errors sl sr (o e.attempt).page = .rate_limited ∧
      e.attempt < mr - 1)
    ∧ (∀ e ∈ tr, e.kind = .backoffExc →
      (o e.attempt).navExc.isSome = true ∧ e.attempt < mr - 1)
    ∧ (∀ e ∈ tr, (e.kind = .termLogin ∨ e.kind = .termBlocked) →
      ∀ e2 ∈ tr, e2 = e ∨ e2.attempt < e.attempt) := by
  have hp : attemptLoop sl sr o (initRecord hashtag now) mr mp 0 mr = (r, tr) := by
    simpa [fetch_hashtag_info] using h
  have hc := attemptLoop_c3 sl sr o (initRecord hashtag now) mr mp mr 0
  rw [hp] at hc
  exact ⟨fun e he hk => ((hc.2 e he).1 hk), fun e he hk => ((hc.2 e he).2.1 hk),
    fun e he hk => ((hc.2 e he).2.2 hk)⟩

/-- C3 witness: a run (with both skip flags off) whose first attempt is
rate limited and backs off, applied to the theorem. -/
theorem c3_witness :
    (oC3 0).navExc = none ∧
    handle_instagram_errors false false (oC3 0).page = .rate_limited ∧
    0 < 3 - 1 := by
  have h := c3_backoff_discipline false false oC3 "t" 0 3 20 _ _ rfl
  exact h.1 ⟨0, .backoffRate⟩ (by decide) rfl

/-- C6 counterexample: with two related-tag anchors a then b
(first-encountered order [a, b]) and a set iteration order that comes out
reversed (a legitimate order: it is a permutation of the deduplicated
list, and CPython string hashing is randomized), the returned record's
related_tags is [b, a], so the claim that the returned list preserves
first-encountered order is false. -/
theorem c6_counterexample :
    (fetch_hashtag_data true oC6 "t" 0 20).map TopicRecord.related_tags = .ok ["b", "a"]
    ∧ collectRelated relatedSelsW [] = ["a", "b"]
    ∧ (List.reverse (collectRelated relatedSelsW [])).Perm
        (collectRelated relatedSelsW []).dedup
    ∧ (["b", "a"] : List String) ≠ ["a", "b"] := by
  exact ⟨by decide, by decide, by decide, by decide⟩

/-- C6 (amended): every returned record has a non-negative count, a
duplicate-free related-tag list of at most ten entries (in an unspecified
order: the final list(set(...)) pass does not preserve the
first-encountered order), and at most maxPosts posts with pairwise
distinct post ids — for any set iteration order that permutes the
deduplicated collected list. -/
theorem c6_record_bounds_amended (initOk : Bool) (o : Nat → AttemptSpec)
    (hashtag : String) (now maxPosts : Nat) (r : TopicRecord)
    (hperm : ∀ a l, ((o a).extract.setOrd l).Perm l.dedup)
    (h : fetch_hashtag_data initOk o hashtag now maxPosts = .ok r) :
    0 ≤ r.post_count ∧ r.related_tags.Nodup ∧ r.related_tags.length ≤ 10 ∧
    r.top_posts.length ≤ maxPosts ∧ (r.top_posts.map Post.post_id).Nodup := by
  by_cases hinit : initOk = true
  · rw [hinit] at h
    have hp : (attemptLoop true true o (initRecord hashtag now) 3 maxPosts 0 3).1 = r := by
      simpa [fetch_hashtag_data, fetch_hashtag_info, Except.map] using h
    rw [← hp]
    exact attemptLoop_c6 true true o (initRecord hashtag now) 3 maxPosts hperm
      (by simp [initRecord]) (by simp [initRecord]) (by simp [initRecord])
      (by simp [initRecord]) (by simp [initRecord]) 3 0
  · have hf : initOk = false := by simpa using hinit
    rw [hf] at h
    have hp : sessionFailRecord hashtag = r := by
      simpa [fetch_hashtag_data] using h
    rw [← hp]
    exact ⟨le_refl 0, List.nodup_nil, by simp [sessionFailRecord], by simp [sessionFailRecord],
      by simp [sessionFailRecord]⟩

/-- C6 witness: the amended theorem applied to a concrete run whose set
iteration order is first-insertion order. -/
theorem c6_witness :
    0 ≤ (sessionFailRecord "x").post_count ∧
    (sessionFailRecord "x").related_tags.Nodup ∧
    (sessionFailRecord "x").related_tags.length ≤ 10 ∧
    (sessionFailRecord "x").top_posts.length ≤ 20 ∧
    ((sessionFailRecord "x").top_posts.map Post.post_id).Nodup :=
  c6_record_bounds_amended false oDedup "x" 0 20 (sessionFailRecord "x")
    (fun _ l => List.Perm.refl _) rfl

/-- C7 counterexample: the source applies lstrip('#') before strip(), so
for the input " #tag" (leading whitespace before the marker) the returned
hashtag field is "#tag", which still has a leading marker, not the "tag"
the claim requires. -/
theorem c7_counterexample :
    (fetch_hashtag_data true oTriv " #tag" 0 20).map TopicRecord.hashtag = .ok "#tag"
    ∧ ("#tag" : String) ≠ "tag"
    ∧ "#tag".toList.head? = some '#' := by
  exact ⟨by decide, by decide, by decide⟩

/-- C7 (amended): the hashtag field equals the input with the leading run
of '#' removed first and whitespace trimmed second; it therefore never has
leading or trailing whitespace, and it has no leading marker whenever the
input contains no whitespace at all — but a marker preceded by whitespace
(as in " #tag") survives. -/
theorem c7_hashtag_normalization_amended :
    (∀ sl sr o hashtag now mr mp r tr,
      fetch_hashtag_info sl sr true o hashtag now mr mp = .ok (r, tr) →
      r.hashtag = String.mk (pyStripWs (pyLstripHash hashtag.toList)))
    ∧ (∀ s c, ((pyStripWs (pyLstripHash s)).head? = some c → pyWhitespace c = false)
        ∧ ((pyStripWs (pyLstripHash s)).getLast? = some c → pyWhitespace c = false))
    ∧ (∀ s c, (∀ d ∈ s, pyWhitespace d = false) →
        (pyStripWs (pyLstripHash s)).head? = some c → c ≠ '#') := by
  refine ⟨?_, ?_, ?_⟩
  · intro sl sr o hashtag now mr mp r tr h
    have hp : attemptLoop sl sr o (initRecord hashtag now) mr mp 0 mr = (r, tr) := by
      simpa [fetch_hashtag_info] using h
    have hh := attemptLoop_hashtag sl sr o (initRecord hashtag now) mr mp mr 0
    rw [hp] at hh
    exact hh
  · intro s c
    exact ⟨pyStripWs_head _ c, pyStripWs_getLast _ c⟩
  · intro s c hws h
    have hnos : ∀ d ∈ pyLstripHash s, pyWhitespace d = false := by
      intro d hd
      exact hws d ((List.dropWhile_suffix _).subset hd)
    rw [pyStripWs_of_no_ws _ hnos] at h
    have := head_dropWhile_not (fun c => c = '#') s c h
    simpa using this

/-- C7 witness: the amended theorem applied to a concrete fetch. -/
theorem c7_witness : ("tag" : String) = String.mk (pyStripWs (pyLstripHash "#tag".toList)) := by
  have h := c7_hashtag_normalization_amended.1 true true oTriv "#tag" 0 3 20 _ _ rfl
  rw [← h]
  decide

/-- C8 counterexample: on a post page where no like-count selector matches
and nothing raises, the likes key is never written, so it is absent (null)
rather than present with value 0 as the claim states. -/
theorem c8_counterexample :
    (extract_post_from_page "https://www.instagram.com/p/ABC/" ppNoLikes).likes = none
    ∧ (none : Option Int) ≠ some 0 := by
  exact ⟨rfl, by decide⟩

/-- C8 (amended): the 0 default applies exactly when an exception is
raised inside the like-count block (including the parse error of the
number extractor); when no selector yields elements and nothing raises,
the likes field is absent (null); any present likes value is
non-negative. -/
theorem c8_likes_amended (url : String) (pp : PostPage) :
    (pp.likesExc = true → (extract_post_from_page url pp).likes = some 0)
    ∧ (pp.likesExc = false → pp.likesTexts.all List.isEmpty = true →
        (extract_post_from_page url pp).likes = none)
    ∧ (∀ n, (extract_post_from_page url pp).likes = some n → 0 ≤ n) := by
  refine ⟨?_, ?_, ?_⟩
  · intro he
    show likesField pp = some 0
    unfold likesField
    rw [he]
    simp
  · intro he hall
    show likesField pp = none
    unfold likesField
    rw [he]
    have hfind : pp.likesTexts.find? (fun l => !l.isEmpty) = none := by
      rw [List.find?_eq_none]
      intro l hl
      simp [List.all_eq_true.mp hall l hl]
    rw [hfind]
    simp
  · intro n
    show likesField pp = some n → 0 ≤ n
    unfold likesField
    split
    · intro h
      simp at h
      omega
    · split
      · split
        · rename_i m hm
          intro h
          simp at h
          subst h
          exact extract_number_ok_nonneg _ _ hm
        · intro h
          simp at h
          omega
      · intro h
        simp at h

/-- C8 witness: the amended theorem applied at concrete inputs for the
exception branch. -/
theorem c8_witness :
    (extract_post_from_page "https://www.instagram.com/p/ABC/"
      { likesExc := true }).likes = some 0 :=
  (c8_likes_amended "https://www.instagram.com/p/ABC/" { likesExc := true }).1 rfl

/-- C9: with both skip flags set (the defaults fetch_hashtag_data uses),
the classifier can only return blocked, none or unknown, and no record
coming out of the entry point ever carries the login-required or
rate-limited error message. -/
theorem c9_default_flags_unreachable :
    (∀ p : PageState, handle_instagram_errors true true p = .blocked ∨
      handle_instagram_errors true true p = .none_cls ∨
      handle_instagram_errors true true p = .unknown)
    ∧ (∀ initOk o hashtag now mp r,
      fetch_hashtag_data initOk o hashtag now mp = .ok r →
      errIsLoginOrRate r.error = false) := by
  constructor
  · exact classifier_skip_flags
  · intro initOk o hashtag now mp r h
    by_cases hinit : initOk = true
    · rw [hinit] at h
      have hp : (attemptLoop true true o (initRecord hashtag now) 3 mp 0 3).1 = r := by
        simpa [fetch_hashtag_data, fetch_hashtag_info, Except.map] using h
      rw [← hp]
      exact attemptLoop_c9 o (initRecord hashtag now) 3 mp rfl 3 0
    · have hf : initOk = false := by simpa using hinit
      rw [hf] at h
      have hp : sessionFailRecord hashtag = r := by
        simpa [fetch_hashtag_data] using h
      rw [← hp]
      rfl

/-- C9 witness: the theorem applied at a concrete run. -/
theorem c9_witness : errIsLoginOrRate (sessionFailRecord "x").error = false :=
  c9_default_flags_unreachable.2 false oTriv "x" 0 20 (sessionFailRecord "x") rfl

end IgScraperClaims
